import Mathlib

/-!
Verification of the ingestion pipeline of `private_gpt` against its
specification, by a shallow embedding of
`private_gpt/server/ingest/ingest_service.py` into Lean.

External library functions (llama_index's semantic splitter, the sentence
splitter's parsing and tokenizer, the filesystem, the ingestion component's
store operations) are parameters of the embedding; the repository's own
control flow is translated literally.
-/

set_option maxRecDepth 4000

namespace PrivateGpt

/-- Node object types, from llama_index `ObjectType` (only the distinction
text vs. non-text matters to the code under verification). -/
inductive ObjType
  | TEXT
  | IMAGE
  | INDEX
  | DOCUMENT
  deriving DecidableEq, Repr

/-- Metadata mapping of a document or node: association list from keys to
string values, in insertion order (embeds a Python `dict[str, str]`). -/
abbrev Metadata := List (String × String)

/-- A llama_index `BaseNode` as far as the code reads it: its object type
(`get_type()`), text (`.text`), metadata (`.metadata`) and back reference
to its source document (`.ref_doc_id`). -/
structure BaseNode where
  nodeType : ObjType
  text : String
  metadata : Option Metadata
  ref_doc_id : Option String
  deriving DecidableEq, Repr

/-- `DEFAULT_CHUNK_SIZE = 384` (ingest_service.py line 33). -/
def DEFAULT_CHUNK_SIZE : Nat := 384

/-- `SENTENCE_CHUNK_OVERLAP = 50` (ingest_service.py line 34). -/
def SENTENCE_CHUNK_OVERLAP : Nat := 50

/-- Configuration of a llama_index `SentenceSplitter` as read by the code:
its `chunk_size` and `chunk_overlap`. -/
structure SentenceSplitterCfg where
  chunk_size : Nat
  chunk_overlap : Nat
  deriving DecidableEq, Repr

/-- `SafeSemanticSplitter.safety_chunker = SentenceSplitter(chunk_size=
DEFAULT_CHUNK_SIZE, chunk_overlap=SENTENCE_CHUNK_OVERLAP)` (line 38):
the configuration of the fallback splitter. -/
def SafeSemanticSplitter.safety_chunker : SentenceSplitterCfg :=
  { chunk_size := DEFAULT_CHUNK_SIZE, chunk_overlap := SENTENCE_CHUNK_OVERLAP }

/-- Configuration passed to `SafeSemanticSplitter.from_defaults` in
`IngestService.__init__` (lines 78-83). -/
structure SemanticSplitterCfg where
  breakpoint_percentile_threshold : Nat
  include_metadata : Bool
  include_prev_next_rel : Bool
  deriving DecidableEq, Repr

/-- The concrete configuration built at line 78-83 of ingest_service.py. -/
def IngestService.node_parser_config : SemanticSplitterCfg :=
  { breakpoint_percentile_threshold := 95
  , include_metadata := true
  , include_prev_next_rel := true }

/-- The external splitting machinery `SafeSemanticSplitter._parse_nodes`
calls into, all outside this repository:
`semanticParse` is `SemanticSplitterNodeParser._parse_nodes` (the `super()`
call), `safetyParse` is `SentenceSplitter._parse_nodes` on the safety
chunker, and `tokenSize` is `SentenceSplitter._token_size`. -/
structure SplitterEnv where
  semanticParse : List BaseNode → List BaseNode
  safetyParse : List BaseNode → List BaseNode
  tokenSize : String → Nat

/-- The `for node in all_nodes:` loop of `SafeSemanticSplitter._parse_nodes`
(lines 48-56), translated statement by statement.  The Python iterator is
fixed at loop entry, so the node list being iterated is the first argument
and the mutable variable `all_nodes` is threaded separately; `all_good` is
threaded as the Bool.  An oversized text node sets `all_good = False` and
`break`s, which leaves the loop at once — in particular it skips the
`if not all_good:` statement of that iteration. -/
def parseLoop (env : SplitterEnv) (chunkSize : Nat) (orig : List BaseNode) :
    List BaseNode → Bool → List BaseNode → List BaseNode
  | [], _, all_nodes => all_nodes
  | node :: rest, all_good, all_nodes =>
    if node.nodeType = ObjType.TEXT ∧ env.tokenSize node.text > chunkSize then
      all_nodes
    else
      parseLoop env chunkSize orig rest all_good
        (if all_good then all_nodes else env.safetyParse orig)

/-- `SafeSemanticSplitter._parse_nodes` (ingest_service.py lines 40-57):
run the semantic split, then scan it for an oversized text node. -/
def SafeSemanticSplitter.parse_nodes (env : SplitterEnv) (nodes : List BaseNode) :
    List BaseNode :=
  let all_nodes := env.semanticParse nodes
  parseLoop env SafeSemanticSplitter.safety_chunker.chunk_size nodes all_nodes true all_nodes

/-- With `all_good` still `true`, the loop never rewrites `all_nodes`:
it either falls through or breaks, returning its input unchanged. -/
lemma parseLoop_true (env : SplitterEnv) (cs : Nat) (orig : List BaseNode) :
    ∀ (l ns : List BaseNode), parseLoop env cs orig l true ns = ns := by
  intro l
  induction l with
  | nil => intro ns; rfl
  | cons node rest ih =>
    intro ns
    by_cases h : node.nodeType = ObjType.TEXT ∧ env.tokenSize node.text > cs
    · simp [parseLoop, h]
    · simp [parseLoop, h, ih]

/-- The fallback branch is unreachable: `all_good` is only set to `False`
immediately before `break`, so the `if not all_good:` re-split never fires
and the function returns the semantic candidate set for every input. -/
lemma parse_nodes_eq_semantic (env : SplitterEnv) (nodes : List BaseNode) :
    SafeSemanticSplitter.parse_nodes env nodes = env.semanticParse nodes := by
  unfold SafeSemanticSplitter.parse_nodes
  exact parseLoop_true env _ nodes _ _

/-- A text node whose token count (here: character count) is 400 > 384. -/
def oversizedNode : BaseNode :=
  { nodeType := ObjType.TEXT
  , text := String.mk (List.replicate 400 'a')
  , metadata := none
  , ref_doc_id := none }

/-- The input batch: one document-type node. -/
def inputBatch : List BaseNode :=
  [{ nodeType := ObjType.DOCUMENT
   , text := "source document"
   , metadata := none
   , ref_doc_id := none }]

/-- A concrete splitter environment on which the semantic split of
`inputBatch` is the single oversized node, while the safety splitter would
cut it into two small text nodes; token counting is character counting. -/
def oversizedEnv : SplitterEnv :=
  { semanticParse := fun _ => [oversizedNode]
  , safetyParse := fun _ =>
      [ { nodeType := ObjType.TEXT
        , text := String.mk (List.replicate 200 'a')
        , metadata := none
        , ref_doc_id := none }
      , { nodeType := ObjType.TEXT
        , text := String.mk (List.replicate 200 'a')
        , metadata := none
        , ref_doc_id := none } ]
  , tokenSize := fun s => s.length }

/-- C1: the claimed fallback does not happen.  On a batch whose semantic
split contains a text node of 400 tokens (over the 384-token safety chunk
size), `_parse_nodes` still returns the semantic candidate set, not the
fixed-size split of the original input: the `break` at line 54 exits the
loop before the `if not all_good:` re-split at lines 55-56 can run, so the
fallback branch is dead code, contradicting the log message "switching to
static chunking" the code emits on that path. -/
theorem c1_fallback_never_taken :
    SafeSemanticSplitter.parse_nodes oversizedEnv inputBatch
        = oversizedEnv.semanticParse inputBatch
      ∧ oversizedNode ∈ oversizedEnv.semanticParse inputBatch
      ∧ oversizedNode.nodeType = ObjType.TEXT
      ∧ oversizedEnv.tokenSize oversizedNode.text
          > SafeSemanticSplitter.safety_chunker.chunk_size
      ∧ SafeSemanticSplitter.parse_nodes oversizedEnv inputBatch
          ≠ oversizedEnv.safetyParse inputBatch := by
  refine ⟨parse_nodes_eq_semantic oversizedEnv inputBatch, ?_, rfl, ?_, ?_⟩
  · simp [oversizedEnv]
  · decide
  · rw [parse_nodes_eq_semantic oversizedEnv inputBatch]
    decide

/-- C2: if every text-type node of the semantic split is within the safety
chunk size, the splitter returns the semantic split unchanged; non-text
nodes are never measured, so their size is unconstrained. -/
theorem c2_nontext_never_triggers_fallback (env : SplitterEnv) (nodes : List BaseNode)
    (h : ∀ n ∈ env.semanticParse nodes, n.nodeType = ObjType.TEXT →
      env.tokenSize n.text ≤ SafeSemanticSplitter.safety_chunker.chunk_size) :
    SafeSemanticSplitter.parse_nodes env nodes = env.semanticParse nodes :=
  parse_nodes_eq_semantic env nodes

/-- A concrete environment whose semantic split holds a huge non-text node
(500 tokens) next to a small text node. -/
def hugeNonTextEnv : SplitterEnv :=
  { semanticParse := fun _ =>
      [ { nodeType := ObjType.IMAGE
        , text := String.mk (List.replicate 500 'b')
        , metadata := none
        , ref_doc_id := none }
      , { nodeType := ObjType.TEXT
        , text := "short"
        , metadata := none
        , ref_doc_id := none } ]
  , safetyParse := fun _ => []
  , tokenSize := fun s => s.length }

/-- C2 witness: on a batch whose semantic split has a 500-token non-text
node and a small text node, the hypothesis holds and the semantic split is
returned unchanged. -/
theorem c2_witness :
    (∀ n ∈ hugeNonTextEnv.semanticParse inputBatch, n.nodeType = ObjType.TEXT →
        hugeNonTextEnv.tokenSize n.text ≤ SafeSemanticSplitter.safety_chunker.chunk_size)
      ∧ SafeSemanticSplitter.parse_nodes hugeNonTextEnv inputBatch
          = hugeNonTextEnv.semanticParse inputBatch :=
  ⟨by decide, c2_nontext_never_triggers_fallback hugeNonTextEnv inputBatch (by decide)⟩

/-- C8: the configured defaults are as specified: safety chunk size 384,
overlap 50, wired into the safety chunker, and semantic breakpoint
percentile threshold 95. -/
theorem c8_default_parameters :
    DEFAULT_CHUNK_SIZE = 384
      ∧ SENTENCE_CHUNK_OVERLAP = 50
      ∧ SafeSemanticSplitter.safety_chunker.chunk_size = DEFAULT_CHUNK_SIZE
      ∧ SafeSemanticSplitter.safety_chunker.chunk_overlap = SENTENCE_CHUNK_OVERLAP
      ∧ IngestService.node_parser_config.breakpoint_percentile_threshold = 95 := by
  refine ⟨rfl, rfl, rfl, rfl, rfl⟩

/-! ## Temp-file materialization: `_ingest_data`, `ingest_text`, `ingest_bin_data` -/

/-- A service-facing ingested document (`IngestedDoc` from
`private_gpt/server/ingest/model.py`): object tag, doc id, curated
metadata (null when the source had none). -/
structure IngestedDoc where
  object : String
  doc_id : String
  doc_metadata : Option Metadata
  deriving DecidableEq, Repr

/-- The `AnyStr` payload of `_ingest_data`: Python passes either `bytes`
or `str` and branches on `isinstance(file_data, bytes)`. -/
inductive FileData
  | bytes (b : List Nat)
  | text (s : String)
  deriving DecidableEq, Repr

/-- The filesystem as far as this code touches it: a mapping from path to
file content (raw bytes), as an association list. -/
abbrev Disk := List (String × List Nat)

/-- Create or overwrite a file at path `p` with content `c`. -/
def setFile (disk : Disk) (p : String) (c : List Nat) : Disk :=
  (p, c) :: disk.filter (fun e => e.1 ≠ p)

/-- `Path.unlink()`: remove the file at path `p`. -/
def rmFile (disk : Disk) (p : String) : Disk :=
  disk.filter (fun e => e.1 ≠ p)

/-- Whether a file exists at path `p`. -/
def hasFile (disk : Disk) (p : String) : Bool :=
  disk.any (fun e => e.1 = p)

/-- Model of the byte encoding `Path.write_text` applies to a string
(the real code encodes UTF-8; the model writes the codepoint sequence,
which distinguishes contents exactly as much as the claims need). -/
def encodeText (s : String) : List Nat :=
  s.data.map Char.toNat

/-- The bytes `_ingest_data` writes to the temp file: the
`isinstance(file_data, bytes)` branch picks `write_bytes` for raw bytes
and `write_text(str(file_data))` for text. -/
def writtenBytes : FileData → List Nat
  | .bytes b => b
  | .text s => encodeText s

/-- The delegated `IngestService.ingest_file`: reads the disk, may raise
(modelled as `Except`), returns ingested docs.  It is external to
`_ingest_data`'s control flow, so it is a parameter. -/
abbrev IngestFileFn := String → String → Disk → Except Unit (List IngestedDoc)

/-- `IngestService._ingest_data` (ingest_service.py lines 100-115):
`tempfile.NamedTemporaryFile(delete=False)` creates the temp file at a
fresh path `tmpName`; the body writes the payload to it (`write_bytes` for
bytes, `write_text` for text) and delegates to `ingest_file`; the
`finally:` block closes and unlinks the temp file on every exit path, so
the unlink happens whether `ingest_file` returns or raises. -/
def IngestService._ingest_data (ingest_file : IngestFileFn)
    (tmpName file_name : String) (file_data : FileData) (disk : Disk) :
    Except Unit (List IngestedDoc) × Disk :=
  let disk1 := setFile disk tmpName []
  let disk2 := setFile disk1 tmpName (writtenBytes file_data)
  let result := ingest_file file_name tmpName disk2
  (result, rmFile disk2 tmpName)

/-- `IngestService.ingest_text` (lines 123-125): delegate to
`_ingest_data` with the text payload. -/
def IngestService.ingest_text (ingest_file : IngestFileFn)
    (tmpName file_name : String) (text : String) (disk : Disk) :
    Except Unit (List IngestedDoc) × Disk :=
  IngestService._ingest_data ingest_file tmpName file_name (.text text) disk

/-- A binary upload stream: `raw_file_data.read()` yields its bytes. -/
structure BinStream where
  content : List Nat
  deriving DecidableEq, Repr

/-- `BinaryIO.read()`: the full byte content of the stream. -/
def BinStream.read (s : BinStream) : List Nat := s.content

/-- `IngestService.ingest_bin_data` (lines 127-132): read the stream fully
into memory, then delegate to `_ingest_data` with the bytes payload. -/
def IngestService.ingest_bin_data (ingest_file : IngestFileFn)
    (tmpName file_name : String) (raw_file_data : BinStream) (disk : Disk) :
    Except Unit (List IngestedDoc) × Disk :=
  let file_data := raw_file_data.read
  IngestService._ingest_data ingest_file tmpName file_name (.bytes file_data) disk

/-- Removing a path from the disk leaves no file at that path. -/
lemma hasFile_rmFile (disk : Disk) (p : String) : hasFile (rmFile disk p) p = false := by
  simp [hasFile, rmFile, List.any_eq_true, List.mem_filter]

/-- If `p` is absent, `rmFile disk p = disk` and `setFile` then `rmFile`
restore the original disk. -/
lemma rmFile_of_not_hasFile (disk : Disk) (p : String) (h : hasFile disk p = false) :
    rmFile disk p = disk := by
  unfold rmFile
  apply List.filter_eq_self.mpr
  intro e hmem
  simp [hasFile, List.any_eq_true] at h
  simpa using h e.1 e.2 hmem

/-- The disk after `_ingest_data` is the original disk with the temp path
removed: both `setFile` layers are undone by the `finally:` unlink. -/
lemma ingest_data_disk (ingest_file : IngestFileFn)
    (tmpName file_name : String) (file_data : FileData) (disk : Disk) :
    (IngestService._ingest_data ingest_file tmpName file_name file_data disk).2
      = rmFile disk tmpName := by
  simp [IngestService._ingest_data, setFile, rmFile, List.filter_filter]

/-- C3: temp-file cleanup on every exit path.  Whatever the delegated
`ingest_file` does (success or raise: it is universally quantified, so
both `.ok` and `.error` outcomes are covered), after `ingest_text` or
`ingest_bin_data` returns, the temp file created during the call is gone;
and if the temp path was fresh, the disk is exactly as before the call. -/
theorem c3_temp_file_cleanup (ingest_file : IngestFileFn)
    (tmpName file_name : String) (text : String) (stream : BinStream) (disk : Disk) :
    hasFile (IngestService.ingest_text ingest_file tmpName file_name text disk).2 tmpName
        = false
      ∧ hasFile (IngestService.ingest_bin_data ingest_file tmpName file_name stream disk).2
          tmpName = false
      ∧ (hasFile disk tmpName = false →
          (IngestService.ingest_text ingest_file tmpName file_name text disk).2 = disk
          ∧ (IngestService.ingest_bin_data ingest_file tmpName file_name stream disk).2
              = disk) := by
  have etext : IngestService.ingest_text ingest_file tmpName file_name text disk
      = IngestService._ingest_data ingest_file tmpName file_name (.text text) disk := rfl
  have ebin : IngestService.ingest_bin_data ingest_file tmpName file_name stream disk
      = IngestService._ingest_data ingest_file tmpName file_name
          (.bytes stream.read) disk := rfl
  refine ⟨?_, ?_, fun hfresh => ⟨?_, ?_⟩⟩
  · rw [etext, ingest_data_disk]; exact hasFile_rmFile disk tmpName
  · rw [ebin, ingest_data_disk]; exact hasFile_rmFile disk tmpName
  · rw [etext, ingest_data_disk]; exact rmFile_of_not_hasFile disk tmpName hfresh
  · rw [ebin, ingest_data_disk]; exact rmFile_of_not_hasFile disk tmpName hfresh

/-- C3 witness: with a concrete delegate that raises, a concrete text and
stream and an initially empty disk, cleanup holds and the disk returns to
empty. -/
theorem c3_witness :
    hasFile ([] : Disk) "tmp0" = false
      ∧ (IngestService.ingest_text (fun _ _ _ => Except.error ()) "tmp0" "note.txt"
          "hello world" []).2 = []
      ∧ (IngestService.ingest_bin_data (fun _ _ _ => Except.error ()) "tmp0" "note.txt"
          ⟨[104, 105]⟩ []).2 = [] := by
  have h := c3_temp_file_cleanup (fun _ _ _ => Except.error ()) "tmp0" "note.txt"
    "hello world" ⟨[104, 105]⟩ []
  exact ⟨rfl, (h.2.2 rfl).1, (h.2.2 rfl).2⟩

/-- C6: the two non-file entry points coincide with the shared
`_ingest_data` path: `ingest_bin_data` on a stream equals `_ingest_data`
on the stream's full read (bytes), `ingest_text` equals `_ingest_data` on
the text, and whenever the bytes written to the temp file agree (bytes
payload vs. encoded text payload), the two entry points return the same
result — they differ only in how the data is written to the temp file,
both then delegating to `ingest_file(file_name, temp_path)`. -/
theorem c6_entry_points_equivalent (ingest_file : IngestFileFn)
    (tmpName file_name : String) (stream : BinStream) (text : String) (disk : Disk) :
    IngestService.ingest_bin_data ingest_file tmpName file_name stream disk
        = IngestService._ingest_data ingest_file tmpName file_name
            (.bytes (stream.read)) disk
      ∧ IngestService.ingest_text ingest_file tmpName file_name text disk
          = IngestService._ingest_data ingest_file tmpName file_name (.text text) disk
      ∧ (writtenBytes (.bytes stream.read) = writtenBytes (.text text) →
          IngestService.ingest_bin_data ingest_file tmpName file_name stream disk
            = IngestService.ingest_text ingest_file tmpName file_name text disk) := by
  refine ⟨rfl, rfl, fun hsame => ?_⟩
  simp only [IngestService.ingest_bin_data, IngestService.ingest_text,
    IngestService._ingest_data, hsame]

/-- C6 witness: a stream holding the encoding of `"hi"` and the text
`"hi"` produce identical results through the two entry points. -/
theorem c6_witness :
    IngestService.ingest_bin_data (fun _ _ _ => Except.ok []) "tmp0" "note.txt"
        ⟨encodeText "hi"⟩ []
      = IngestService.ingest_text (fun _ _ _ => Except.ok []) "tmp0" "note.txt" "hi" [] :=
  (c6_entry_points_equivalent (fun _ _ _ => Except.ok []) "tmp0" "note.txt"
    ⟨encodeText "hi"⟩ "hi" []).2.2 rfl

/-! ## Metadata curation -/

/-- Modelled from the spec: the internal bookkeeping keys
`IngestedDoc.curate_metadata` removes (the definition lives in
`private_gpt/server/ingest/model.py`, which is not among the provided
sources): the document-id self-reference, the sentence-window bookkeeping
key and the original-text-before-windowing key. -/
def excludedMetadataKeys : List String := ["doc_id", "window", "original_text"]

/-- Modelled from the spec: `IngestedDoc.curate_metadata` returns a copy of
the metadata mapping with the fixed set of internal keys removed, without
mutating the input and tolerating missing keys. -/
def IngestedDoc.curate_metadata (m : Metadata) : Metadata :=
  m.filter (fun p => p.1 ∉ excludedMetadataKeys)

/-- Modelled from the spec: curation of a possibly-null metadata mapping —
a null mapping stays null. -/
def curateOptMetadata : Option Metadata → Option Metadata
  | none => none
  | some m => some (IngestedDoc.curate_metadata m)

/-- C9: metadata curation is idempotent — curating an already-curated
mapping yields the same mapping, both on plain and on possibly-null
mappings. -/
theorem c9_curate_metadata_idempotent (m : Metadata) (om : Option Metadata) :
    IngestedDoc.curate_metadata (IngestedDoc.curate_metadata m)
        = IngestedDoc.curate_metadata m
      ∧ curateOptMetadata (curateOptMetadata om) = curateOptMetadata om := by
  constructor
  · simp [IngestedDoc.curate_metadata, List.filter_filter]
  · cases om with
    | none => rfl
    | some m' => simp [curateOptMetadata, IngestedDoc.curate_metadata, List.filter_filter]

/-! ## Listing ingested documents -/

/-- A llama_index `RefDocInfo` as the code reads it: the per-document
metadata (possibly null) and the ids of the document's nodes. -/
structure RefDocInfo where
  metadata : Option Metadata
  node_ids : List String
  deriving DecidableEq, Repr

/-- One entry of `get_all_ref_doc_info()`: a doc id together with its
`RefDocInfo` (null-valued entries are tolerated by the code, which checks
`if ref_doc_info is not None`). -/
abbrev RefDocEntry := String × Option RefDocInfo

/-- The result of the document-store read that `list_ingested` performs:
the outer `Except` is a `ValueError` raised by `get_all_ref_doc_info()`
itself; `none` is a falsy (absent) mapping; each item of the list is
either an entry or a `ValueError` raised at that point of the iteration
(the Python `except ValueError` wraps the whole loop, so an error can
surface after some entries were already processed). -/
abbrev RefDocRead := Except Unit (Option (List (Except Unit RefDocEntry)))

/-- The loop body of `list_ingested` (lines 149-159): `doc_metadata` is
`None` unless both the `RefDocInfo` and its metadata are non-null, in
which case it is the curated metadata; the appended record always has
object `"ingest.document"` and the store key as `doc_id`. -/
def mkIngestedDoc (doc_id : String) (ref_doc_info : Option RefDocInfo) : IngestedDoc :=
  let doc_metadata : Option Metadata :=
    match ref_doc_info with
    | some info =>
      match info.metadata with
      | some md => some (IngestedDoc.curate_metadata md)
      | none => none
    | none => none
  { object := "ingest.document", doc_id := doc_id, doc_metadata := doc_metadata }

/-- The `for doc_id, ref_doc_info in ref_docs.items():` loop with the
`except ValueError` around it: entries are appended in order to the
accumulator; an error mid-iteration is caught and the list built so far is
returned. -/
def listLoop : List (Except Unit RefDocEntry) → List IngestedDoc → List IngestedDoc
  | [], acc => acc
  | .error _ :: _, acc => acc
  | .ok (doc_id, info) :: rest, acc => listLoop rest (acc ++ [mkIngestedDoc doc_id info])

/-- `IngestService.list_ingested` (ingest_service.py lines 140-164):
start from the empty list; a `ValueError` from `get_all_ref_doc_info()`
is caught and yields the empty accumulator; a falsy mapping returns the
empty accumulator; otherwise iterate, catching a mid-scan `ValueError`. -/
def IngestService.list_ingested (store : RefDocRead) : List IngestedDoc :=
  match store with
  | .error _ => []
  | .ok none => []
  | .ok (some items) => if items.isEmpty then [] else listLoop items []

/-- The entries of the scan processed before the first error point. -/
def entriesBeforeError : List (Except Unit RefDocEntry) → List RefDocEntry
  | [] => []
  | .error _ :: _ => []
  | .ok e :: rest => e :: entriesBeforeError rest

/-- The loop returns the accumulator extended with one record per entry
processed before the first error point. -/
lemma listLoop_eq (items : List (Except Unit RefDocEntry)) :
    ∀ acc, listLoop items acc
      = acc ++ (entriesBeforeError items).map (fun e => mkIngestedDoc e.1 e.2) := by
  induction items with
  | nil => intro acc; simp [listLoop, entriesBeforeError]
  | cons item rest ih =>
    intro acc
    cases item with
    | error err => simp [listLoop, entriesBeforeError]
    | ok e =>
      obtain ⟨doc_id, info⟩ := e
      simp [listLoop, entriesBeforeError, ih]

/-- C4: `list_ingested` never propagates a store-state error.  An error in
`get_all_ref_doc_info()` itself yields the empty list; an error at any
point of the per-document scan yields exactly the partial list built from
the entries before the error; an absent or empty store yields the empty
list.  The function is total, so no store state makes it fail. -/
theorem c4_list_ingested_recovers (items : List (Except Unit RefDocEntry)) :
    IngestService.list_ingested (.error ()) = []
      ∧ IngestService.list_ingested (.ok none) = []
      ∧ IngestService.list_ingested (.ok (some [])) = []
      ∧ IngestService.list_ingested (.ok (some items))
          = (entriesBeforeError items).map (fun e => mkIngestedDoc e.1 e.2) := by
  refine ⟨rfl, rfl, rfl, ?_⟩
  cases items with
  | nil => rfl
  | cons item rest =>
    have hred : IngestService.list_ingested (.ok (some (item :: rest)))
        = listLoop (item :: rest) [] := rfl
    rw [hred, listLoop_eq (item :: rest) []]
    simp

/-- C10: a document returned by `get_all_ref_doc_info` with a null
`RefDocInfo` (or a non-null one with null metadata) is not skipped: it
appears in `list_ingested`'s result as a record with object
`"ingest.document"`, the store key as `doc_id`, and null `doc_metadata`. -/
theorem c10_null_refdocinfo_still_listed (items : List (Except Unit RefDocEntry))
    (doc_id : String) (info : Option RefDocInfo)
    (hmem : (doc_id, info) ∈ entriesBeforeError items)
    (hnull : info = none ∨ ∃ ri, info = some ri ∧ ri.metadata = none) :
    { object := "ingest.document", doc_id := doc_id, doc_metadata := none : IngestedDoc }
      ∈ IngestService.list_ingested (.ok (some items)) := by
  have hne : items ≠ [] := by
    intro hnil
    rw [hnil] at hmem
    simp [entriesBeforeError] at hmem
  have hrepr : mkIngestedDoc doc_id info
      = { object := "ingest.document", doc_id := doc_id, doc_metadata := none } := by
    rcases hnull with hno | ⟨ri, hri, hmd⟩
    · rw [hno]; rfl
    · rw [hri]; simp [mkIngestedDoc, hmd]
  have hloop : IngestService.list_ingested (.ok (some items))
      = (entriesBeforeError items).map (fun e => mkIngestedDoc e.1 e.2) := by
    cases items with
    | nil => exact absurd rfl hne
    | cons item rest =>
      have hred : IngestService.list_ingested (.ok (some (item :: rest)))
          = listLoop (item :: rest) [] := rfl
      rw [hred, listLoop_eq (item :: rest) []]
      simp
  rw [hloop, ← hrepr]
  exact List.mem_map.mpr ⟨(doc_id, info), hmem, rfl⟩

/-- C10 witness: a scan containing a null-RefDocInfo entry under key
`"d1"` lists that document with null metadata. -/
theorem c10_witness :
    { object := "ingest.document", doc_id := "d1", doc_metadata := none : IngestedDoc }
      ∈ IngestService.list_ingested
          (.ok (some [.ok ("d0", some ⟨some [("file_name", "a.txt")], []⟩),
                      .ok ("d1", none)])) :=
  c10_null_refdocinfo_still_listed
    [.ok ("d0", some ⟨some [("file_name", "a.txt")], []⟩), .ok ("d1", none)]
    "d1" none (by simp [entriesBeforeError]) (Or.inl rfl)

/-! ## Lookup of document ids by file name -/

/-- A node as stored in the document store and read by
`get_doc_ids_by_filename`: its metadata and its `ref_doc_id` (which
llama_index types as optional). -/
structure DocNode where
  metadata : Option Metadata
  ref_doc_id : Option String
  deriving DecidableEq, Repr

/-- The condition at line 181: `node.metadata is not None and
node.metadata.get("file_name") == filename` (a missing key makes `get`
return `None`, which never equals a string). -/
def fileNameMatches (node : DocNode) (filename : String) : Bool :=
  match node.metadata with
  | some md => md.lookup "file_name" == some filename
  | none => false

/-- `set.add`: Python set insertion — a no-op when the element is already
present. -/
def setInsert (l : List (Option String)) (x : Option String) : List (Option String) :=
  if x ∈ l then l else l ++ [x]

/-- `IngestService.get_doc_ids_by_filename` (ingest_service.py lines
176-191): scan `docstore.docs.values()`, adding `node.ref_doc_id` to the
set for every matching node; a `ValueError` when accessing the docstore is
caught and the set built so far — empty, since the error surfaces at the
`docstore.docs` access before any iteration — is returned. -/
def IngestService.get_doc_ids_by_filename (docs : Except Unit (List DocNode))
    (filename : String) : List (Option String) :=
  match docs with
  | .error _ => []
  | .ok nodes =>
    nodes.foldl
      (fun doc_ids node =>
        if fileNameMatches node filename then setInsert doc_ids node.ref_doc_id
        else doc_ids)
      []

/-- Membership in a Python-set insertion. -/
lemma mem_setInsert (l : List (Option String)) (x y : Option String) :
    y ∈ setInsert l x ↔ y ∈ l ∨ y = x := by
  unfold setInsert
  by_cases hx : x ∈ l
  · rw [if_pos hx]
    constructor
    · exact Or.inl
    · rintro (hy | rfl)
      · exact hy
      · exact hx
  · rw [if_neg hx]
    simp

/-- Python-set insertion keeps the list duplicate-free. -/
lemma nodup_setInsert (l : List (Option String)) (x : Option String)
    (h : l.Nodup) : (setInsert l x).Nodup := by
  unfold setInsert
  by_cases hx : x ∈ l
  · rwa [if_pos hx]
  · rw [if_neg hx]
    simp [List.nodup_append, h, hx]

/-- Membership characterization of the scan loop of
`get_doc_ids_by_filename`. -/
lemma mem_docIdsLoop (filename : String) (nodes : List DocNode) :
    ∀ (acc : List (Option String)) (x : Option String),
      (x ∈ nodes.foldl
          (fun doc_ids node =>
            if fileNameMatches node filename then setInsert doc_ids node.ref_doc_id
            else doc_ids)
          acc)
        ↔ x ∈ acc
            ∨ ∃ n ∈ nodes, fileNameMatches n filename = true ∧ n.ref_doc_id = x := by
  induction nodes with
  | nil => intro acc x; simp
  | cons node rest ih =>
    intro acc x
    rw [List.foldl_cons, ih]
    by_cases hm : fileNameMatches node filename
    · simp only [hm, if_pos, mem_setInsert]
      constructor
      · rintro ((hacc | rfl) | ⟨n, hn, hcond, hrid⟩)
        · exact Or.inl hacc
        · exact Or.inr ⟨node, List.mem_cons_self node rest, hm, rfl⟩
        · exact Or.inr ⟨n, List.mem_cons_of_mem node hn, hcond, hrid⟩
      · rintro (hacc | ⟨n, hn, hcond, hrid⟩)
        · exact Or.inl (Or.inl hacc)
        · rcases List.mem_cons.mp hn with rfl | hn'
          · exact Or.inl (Or.inr hrid.symm)
          · exact Or.inr ⟨n, hn', hcond, hrid⟩
    · simp only [hm, if_neg, Bool.false_eq_true]
      constructor
      · rintro (hacc | ⟨n, hn, hcond, hrid⟩)
        · exact Or.inl hacc
        · exact Or.inr ⟨n, List.mem_cons_of_mem node hn, hcond, hrid⟩
      · rintro (hacc | ⟨n, hn, hcond, hrid⟩)
        · exact Or.inl hacc
        · rcases List.mem_cons.mp hn with rfl | hn'
          · exact absurd hcond (by simpa using hm)
          · exact Or.inr ⟨n, hn', hcond, hrid⟩

/-- The scan loop keeps the accumulated set duplicate-free. -/
lemma nodup_docIdsLoop (filename : String) (nodes : List DocNode) :
    ∀ (acc : List (Option String)), acc.Nodup →
      (nodes.foldl
          (fun doc_ids node =>
            if fileNameMatches node filename then setInsert doc_ids node.ref_doc_id
            else doc_ids)
          acc).Nodup := by
  induction nodes with
  | nil => intro acc hacc; simpa using hacc
  | cons node rest ih =>
    intro acc hacc
    rw [List.foldl_cons]
    by_cases hm : fileNameMatches node filename
    · rw [if_pos hm]
      exact ih _ (nodup_setInsert acc node.ref_doc_id hacc)
    · rw [if_neg hm]
      exact ih _ hacc

/-- The match condition, phrased on the data model: the node carries a
metadata mapping that maps `"file_name"` to the given filename. -/
lemma fileNameMatches_iff (node : DocNode) (filename : String) :
    fileNameMatches node filename = true
      ↔ ∃ md, node.metadata = some md ∧ md.lookup "file_name" = some filename := by
  unfold fileNameMatches
  cases node.metadata with
  | none => simp
  | some md => simp

/-- C5: `get_doc_ids_by_filename` returns a duplicate-free collection
whose members are exactly the `ref_doc_id` values of the nodes whose
metadata maps `file_name` to the given filename; a store-state error
yields the empty set. -/
theorem c5_doc_ids_by_filename (nodes : List DocNode) (filename : String)
    (x : Option String) :
    (x ∈ IngestService.get_doc_ids_by_filename (.ok nodes) filename
        ↔ ∃ n ∈ nodes,
            (∃ md, n.metadata = some md ∧ md.lookup "file_name" = some filename)
            ∧ n.ref_doc_id = x)
      ∧ (IngestService.get_doc_ids_by_filename (.ok nodes) filename).Nodup
      ∧ IngestService.get_doc_ids_by_filename (.error ()) filename = [] := by
  refine ⟨?_, ?_, rfl⟩
  · have hchar := mem_docIdsLoop filename nodes [] x
    simp only [List.not_mem_nil, false_or] at hchar
    rw [IngestService.get_doc_ids_by_filename, hchar]
    constructor
    · rintro ⟨n, hn, hcond, hrid⟩
      exact ⟨n, hn, (fileNameMatches_iff n filename).mp hcond, hrid⟩
    · rintro ⟨n, hn, hcond, hrid⟩
      exact ⟨n, hn, (fileNameMatches_iff n filename).mpr hcond, hrid⟩
  · exact nodup_docIdsLoop filename nodes [] List.nodup_nil

/-- C5 witness: in a store with one matching node (for `"a.txt"`) and one
non-matching node, the id of the matching node's source document is
returned for `"a.txt"`. -/
theorem c5_witness :
    some "docA" ∈ IngestService.get_doc_ids_by_filename
        (.ok [ { metadata := some [("file_name", "a.txt")], ref_doc_id := some "docA" }
             , { metadata := some [("file_name", "b.txt")], ref_doc_id := some "docB" } ])
        "a.txt" :=
  (c5_doc_ids_by_filename
      [ { metadata := some [("file_name", "a.txt")], ref_doc_id := some "docA" }
      , { metadata := some [("file_name", "b.txt")], ref_doc_id := some "docB" } ]
      "a.txt" (some "docA")).1.mpr
    ⟨{ metadata := some [("file_name", "a.txt")], ref_doc_id := some "docA" },
      by simp, ⟨[("file_name", "a.txt")], rfl, rfl⟩, rfl⟩

/-! ## Deletion -/

/-- Error raised by the ingestion component's delete: the document id is
absent from the document store.  (The code documents it as `ValueError`;
the spec names it `NotFoundError`.) -/
inductive DeleteErr
  | NotFoundError
  deriving DecidableEq, Repr

/-- Modelled from the spec: `ingest_component.delete(doc_id)` (defined in
`private_gpt/components/ingest/ingest_component.py`, which is not among
the provided sources) removes the document and all its nodes from the
stores, and fails with `NotFoundError` if `doc_id` is absent from the
document store.  The store is modelled by the ids of its documents. -/
def IngestComponent.delete (store : List String) (doc_id : String) :
    Except DeleteErr (List String) :=
  if doc_id ∈ store then .ok (store.filter (fun d => d ≠ doc_id))
  else .error .NotFoundError

/-- `IngestService.delete` (ingest_service.py lines 166-174): a direct
delegation `self.ingest_component.delete(doc_id)` with no surrounding
`try`/`except`. -/
def IngestService.delete (store : List String) (doc_id : String) :
    Except DeleteErr (List String) :=
  IngestComponent.delete store doc_id

/-- C7: `IngestService.delete` is exactly the component's delete — no
catching, no translation, so a `NotFoundError` propagates unmodified; an
absent id errs; and after a successful delete, a second delete of the same
id raises `NotFoundError` rather than silently succeeding. -/
theorem c7_delete_propagates_not_found (store : List String) (doc_id : String) :
    IngestService.delete store doc_id = IngestComponent.delete store doc_id
      ∧ (doc_id ∉ store →
          IngestService.delete store doc_id = .error DeleteErr.NotFoundError)
      ∧ (∀ store', IngestService.delete store doc_id = .ok store' →
          IngestService.delete store' doc_id = .error DeleteErr.NotFoundError) := by
  refine ⟨rfl, fun habs => ?_, fun store' hok => ?_⟩
  · simp [IngestService.delete, IngestComponent.delete, habs]
  · by_cases hmem : doc_id ∈ store
    · have hstore' : store' = store.filter (fun d => d ≠ doc_id) := by
        simpa [IngestService.delete, IngestComponent.delete, hmem] using hok.symm
      have habs : doc_id ∉ store' := by
        rw [hstore']
        simp
      simp [IngestService.delete, IngestComponent.delete, habs]
    · simp [IngestService.delete, IngestComponent.delete, hmem] at hok

/-- C7 witness: deleting `"doc1"` from the one-document store succeeds;
deleting it again from the resulting store raises `NotFoundError`. -/
theorem c7_witness :
    IngestService.delete ["doc1"] "doc1" = .ok []
      ∧ IngestService.delete [] "doc1" = .error DeleteErr.NotFoundError :=
  ⟨rfl, (c7_delete_propagates_not_found ["doc1"] "doc1").2.2 [] rfl⟩

end PrivateGpt
